import Mathlib

/-!
Verification of the Economyxim agent-based economy simulation.

The Python sources (src/agents/firm_agent.py, household_agent.py,
person_agent.py, government_agent.py) are shallowly embedded below:
each mutating method becomes a pure function from the agent state to a
new agent state, machine floats become exact rationals, and the
simulation's random choices (candidate shuffles, uniform picks) become
explicit parameters, so that a theorem quantified over those parameters
covers every run of the original code.
-/

namespace Economyxim

/-- Firm category, from the `firm_type` strings in firm_agent.py. -/
inductive FirmType where
  | necessity
  | luxury
deriving DecidableEq, Repr

/-- Industry sector, from the `firm_area` / `skill_type` strings. -/
inductive FirmArea where
  | physical
  | service
  | technical
  | creative
  | social
  | analytical
deriving DecidableEq, Repr

/-- Job seniority level, from the `job_level` strings. -/
inductive JobLevel where
  | entry
  | mid
  | senior
deriving DecidableEq, Repr

/-- State of a `PersonAgent` (person_agent.py), fields as in `__init__`. -/
structure PersonState where
  unique_id : ℕ
  employer : Option ℕ
  wage : ℚ
  job_seeking : Bool
  studying_for_min_skills : Bool
  skill_level : ℚ
  labor : ℚ
  skill_type : FirmArea
  job_level : Option JobLevel
deriving DecidableEq, Repr

/-- State of a `FirmAgent` (firm_agent.py), restricted to the fields the
verified methods read or write. -/
structure FirmState where
  unique_id : ℕ
  firm_type : FirmType
  firm_area : FirmArea
  production_capacity : ℚ
  production_level : ℚ
  production_cost : ℚ
  markup : ℚ
  product_price : ℚ
  min_price : ℚ
  inventory : ℚ
  units_sold_this_step : ℚ
  total_requested_this_step : ℚ
  average_demand : ℚ
  demand_history : List ℚ
  profit_history : List ℚ
  employee_adjustment_cooldown : ℕ
  employees : List PersonState
  num_employees : ℕ
  entry_wage : ℚ
  previous_employees : Finset ℕ
deriving DecidableEq

/-- The float literal `1e-6` used throughout firm_agent.py as a
division guard and epsilon. -/
def eps : ℚ := 1 / 1000000

/-- `FirmAgent.fulfill_demand_request` (firm_agent.py lines 235-259):
returns the fulfilled amount and the updated firm. -/
def fulfill_demand_request (s : FirmState) (units_requested : ℚ) :
    FirmState × ℚ :=
  let can_fulfill := min units_requested s.inventory
  let s1 :=
    if 0 < can_fulfill then
      { s with inventory := s.inventory - can_fulfill,
               units_sold_this_step := s.units_sold_this_step + can_fulfill }
    else s
  ({ s1 with total_requested_this_step :=
      s1.total_requested_this_step + units_requested }, can_fulfill)

/-- A concrete firm used to instantiate theorems with hypotheses. -/
def baseFirm : FirmState where
  unique_id := 1
  firm_type := FirmType.necessity
  firm_area := FirmArea.physical
  production_capacity := 10000
  production_level := 1
  production_cost := 2
  markup := 1/5
  product_price := 12/5
  min_price := 21/10
  inventory := 10000
  units_sold_this_step := 0
  total_requested_this_step := 0
  average_demand := 0
  demand_history := []
  profit_history := []
  employee_adjustment_cooldown := 0
  employees := []
  num_employees := 0
  entry_wage := 30000
  previous_employees := ∅

/-- C1: for a non-negative request `n` against a non-negative inventory,
`fulfill_demand_request` returns exactly `min n inventory`, decrements the
inventory by exactly that amount (never below zero), adds it to
`units_sold_this_step`, and adds all of `n` to `total_requested_this_step`. -/
theorem fulfill_demand_request_correct (s : FirmState) (n : ℚ)
    (hinv : 0 ≤ s.inventory) (hn : 0 ≤ n) :
    (fulfill_demand_request s n).2 = min n s.inventory ∧
    (fulfill_demand_request s n).1.inventory =
      s.inventory - (fulfill_demand_request s n).2 ∧
    0 ≤ (fulfill_demand_request s n).1.inventory ∧
    (fulfill_demand_request s n).1.units_sold_this_step =
      s.units_sold_this_step + (fulfill_demand_request s n).2 ∧
    (fulfill_demand_request s n).1.total_requested_this_step =
      s.total_requested_this_step + n := by
  have hmin : 0 ≤ min n s.inventory := le_min hn hinv
  simp only [fulfill_demand_request]
  split_ifs with h
  · refine ⟨?_, ?_, ?_, ?_, ?_⟩ <;>
      first
        | trivial
        | (rw [sub_nonneg]; exact min_le_right _ _)
  · have h0 : min n s.inventory = 0 := le_antisymm (not_lt.mp h) hmin
    refine ⟨?_, ?_, ?_, ?_, ?_⟩ <;>
      first
        | trivial
        | exact hinv
        | simp [h0]

/-- Witness for C1 at a concrete firm and request. -/
theorem fulfill_demand_request_correct_witness :
    (fulfill_demand_request baseFirm 12000).2 = min 12000 baseFirm.inventory ∧
    (fulfill_demand_request baseFirm 12000).1.inventory =
      baseFirm.inventory - (fulfill_demand_request baseFirm 12000).2 ∧
    0 ≤ (fulfill_demand_request baseFirm 12000).1.inventory ∧
    (fulfill_demand_request baseFirm 12000).1.units_sold_this_step =
      baseFirm.units_sold_this_step + (fulfill_demand_request baseFirm 12000).2 ∧
    (fulfill_demand_request baseFirm 12000).1.total_requested_this_step =
      baseFirm.total_requested_this_step + 12000 :=
  fulfill_demand_request_correct baseFirm 12000 (by decide) (by decide)

/-- `FirmAgent.adjust_price` (firm_agent.py lines 322-436).  The market
pressure accumulation is split into the five additive contributions of
the Python if/elif chains; `demand_history_length` is its fixed value 5. -/
def adjust_price (s : FirmState) (sold_units produced_units cost_per_unit : ℚ) :
    FirmState :=
  if produced_units = 0 then s
  else
    let inventory_demand_ratio :=
      s.inventory / (s.total_requested_this_step + eps)
    let sell_through_rate := sold_units / (produced_units + eps)
    let trends : ℚ × ℚ :=
      match s.demand_history, s.demand_history.reverse with
      | e1 :: e2 :: _, d1 :: d2 :: _ =>
          let short_term := d1 / (d2 + eps) - 1
          let long_term :=
            if s.demand_history.length = 5 then
              ((d1 + d2) / 2) / ((e1 + e2) / 2 + eps) - 1
            else 0
          (short_term, long_term)
      | _, _ => (0, 0)
    let short_term_trend := trends.1
    let long_term_trend := trends.2
    let mp1 : ℚ :=
      match s.firm_type with
      | FirmType.luxury =>
          if 3 < inventory_demand_ratio then -(7/10)
          else if 2 < inventory_demand_ratio then -(6/10)
          else if 3/2 < inventory_demand_ratio then -(5/10)
          else if inventory_demand_ratio < 3/10 then 6/10
          else if inventory_demand_ratio < 1/2 then 4/10
          else 0
      | FirmType.necessity =>
          if 2 < inventory_demand_ratio then -(4/10)
          else if 3/2 < inventory_demand_ratio then -(2/10)
          else if inventory_demand_ratio < 1/2 then 5/10
          else if inventory_demand_ratio < 1/5 then 1
          else 0
    let mp2 : ℚ :=
      if sell_through_rate < 1/5 then -(5/10)
      else if sell_through_rate < 2/5 then -(3/10)
      else if 9/10 < sell_through_rate then 4/10
      else 0
    let mp3 : ℚ :=
      if short_term_trend < -(3/10) then -(2/10)
      else if short_term_trend < -(2/10) then -(1/10)
      else if 1/5 < short_term_trend then 15/100
      else 0
    let mp4 : ℚ :=
      if long_term_trend < -(2/10) then -(1/10)
      else if long_term_trend < -(1/10) then -(5/100)
      else if 1/10 < long_term_trend then 5/100
      else 0
    let mp5 : ℚ :=
      if s.firm_type = FirmType.luxury ∧
         s.average_demand < s.production_capacity * (15/100) ∧
         sell_through_rate < 3/10 then -(6/10)
      else 0
    let market_pressure := max (-1) (min (mp1 + mp2 + mp3 + mp4 + mp5) 1)
    let markup_change :=
      if s.firm_type = FirmType.luxury ∧ market_pressure < -(1/2) then
        market_pressure * (8/10)
      else market_pressure * (1/2)
    let new_markup := max (1/2) (s.markup + markup_change)
    let calculated_price := cost_per_unit * (1 + new_markup)
    let flexible_min_price :=
      if s.firm_type = FirmType.luxury ∧
         s.average_demand < s.production_capacity * (1/5) then
        s.production_cost * (102/100)
      else s.min_price
    { s with markup := new_markup,
             product_price := max calculated_price flexible_min_price }

/-- C10: a firm that produced nothing this step keeps its state (and in
particular its price, markup and minimum price) exactly unchanged, because
`adjust_price` returns immediately when `produced_units == 0`. -/
theorem adjust_price_noop_when_no_production (s : FirmState)
    (sold cpu : ℚ) : adjust_price s sold 0 cpu = s := by
  simp [adjust_price]

/-- A concrete luxury firm in the crisis regime of `adjust_price`
(`average_demand` far below capacity, nothing sold). -/
def luxCrisisFirm : FirmState where
  unique_id := 2
  firm_type := FirmType.luxury
  firm_area := FirmArea.technical
  production_capacity := 100
  production_level := 1
  production_cost := 1
  markup := 1/2
  product_price := 100
  min_price := 100
  inventory := 100
  units_sold_this_step := 0
  total_requested_this_step := 0
  average_demand := 0
  demand_history := []
  profit_history := []
  employee_adjustment_cooldown := 0
  employees := []
  num_employees := 0
  entry_wage := 30000
  previous_employees := ∅

/-- C3 counterexample: for a luxury firm in crisis, `adjust_price` sets
the product price below `min_price` (the flexible crisis floor
`production_cost * 1.02` replaces `min_price`). -/
theorem adjust_price_below_min_price_counterexample :
    (adjust_price luxCrisisFirm 0 10 1).product_price <
      luxCrisisFirm.min_price := by
  norm_num [adjust_price, luxCrisisFirm, eps]

/-- C3 (amended): after any `adjust_price` call with nonzero production,
the markup is at least its floor 0.5, and the product price is at least
`min_price` except for a luxury firm in crisis
(`average_demand < 0.2 * production_capacity`), where the enforced floor
is `production_cost * 1.02` instead. -/
theorem adjust_price_markup_floor_and_price_floor (s : FirmState)
    (sold produced cpu : ℚ) (h : produced ≠ 0) :
    (1/2 : ℚ) ≤ (adjust_price s sold produced cpu).markup ∧
    (if s.firm_type = FirmType.luxury ∧
        s.average_demand < s.production_capacity * (1/5) then
       s.production_cost * (102/100)
     else s.min_price) ≤ (adjust_price s sold produced cpu).product_price := by
  simp only [adjust_price, if_neg h]
  exact ⟨le_max_left _ _, le_max_right _ _⟩

/-- Witness for the amended C3 at a concrete firm. -/
theorem adjust_price_markup_floor_and_price_floor_witness :
    (1/2 : ℚ) ≤ (adjust_price luxCrisisFirm 0 10 1).markup ∧
    (if luxCrisisFirm.firm_type = FirmType.luxury ∧
        luxCrisisFirm.average_demand <
          luxCrisisFirm.production_capacity * (1/5) then
       luxCrisisFirm.production_cost * (102/100)
     else luxCrisisFirm.min_price) ≤
      (adjust_price luxCrisisFirm 0 10 1).product_price :=
  adjust_price_markup_floor_and_price_floor luxCrisisFirm 0 10 1 (by decide)

/-- The three possible outcomes of the employment-adjustment decision. -/
inductive EmpAction where
  | fire
  | hire
  | noop
deriving DecidableEq, Repr

/-- The decision tree of `FirmAgent.adjust_employees` (firm_agent.py
lines 478-509), given the current profit `p0`, the average of the three
preceding profits, and the computed stability flag. -/
def employment_decision_core (p0 avg_past : ℚ) (is_stable : Bool) :
    EmpAction :=
  if p0 < 0 then
    if p0 < avg_past ∧ is_stable = false then EmpAction.fire
    else if is_stable then EmpAction.fire
    else EmpAction.noop
  else
    if avg_past < p0 ∧ is_stable = false then EmpAction.hire
    else if is_stable then EmpAction.hire
    else EmpAction.noop

/-- The decision core of `FirmAgent.adjust_employees` (firm_agent.py
lines 438-513): which action the firm attempts, as a function of the
cooldown counter and the profit history (stored oldest first, exactly as
`self.profit_history`; `profit_history_length` is its fixed value 4). -/
def adjust_employees_decision (cooldown : ℕ) (profit_history : List ℚ) :
    EmpAction :=
  if 0 < cooldown then EmpAction.noop
  else if profit_history.length < 4 then EmpAction.noop
  else
    match profit_history.reverse with
    | p0 :: p1 :: p2 :: p3 :: _ =>
        let avg_past := (p1 + p2 + p3) / 3
        let is_stable : Bool :=
          if avg_past = 0 then decide (|p0| < eps)
          else decide (|p0 - avg_past| < 5/100 * |avg_past|)
        employment_decision_core p0 avg_past is_stable
    | _ => EmpAction.noop

/-- The stability test exactly as the spec words it: stable when the most
recent profit is within 5% of the average of the preceding window, or
within epsilon of zero when that average is zero. -/
def spec_is_stable (p0 avg : ℚ) : Bool :=
  if avg = 0 then decide (|p0| < eps)
  else decide (|p0 - avg| < 5/100 * |avg|)

/-- The employment decision table of spec section 4.1, row by row:
at a loss and stable, or at a loss and worsening, fire; at a loss and
improving, monitor; profiting and stable, or profiting and improving,
hire; profiting and worsening, monitor. -/
def spec_employment_table (p0 avg : ℚ) : EmpAction :=
  if p0 < 0 then
    if spec_is_stable p0 avg then EmpAction.fire
    else if p0 < avg then EmpAction.fire
    else EmpAction.noop
  else
    if spec_is_stable p0 avg then EmpAction.hire
    else if avg < p0 then EmpAction.hire
    else EmpAction.noop

/-- C2 counterexample: the claim asserts that the length-3 profit
histories of the spec examples already decide an action, but the code
requires a window of 4 profits and takes no action on either reading of
the 3-element list, so neither yields a fire (resp. hire). -/
theorem adjust_employees_length3_counterexample :
    adjust_employees_decision 0 [-100, -80, -60] = EmpAction.noop ∧
    adjust_employees_decision 0 [-60, -80, -100] = EmpAction.noop ∧
    adjust_employees_decision 0 [50, 40, 45] = EmpAction.noop ∧
    adjust_employees_decision 0 [45, 40, 50] = EmpAction.noop ∧
    EmpAction.noop ≠ EmpAction.fire ∧ EmpAction.noop ≠ EmpAction.hire := by
  refine ⟨?_, ?_, ?_, ?_, by decide, by decide⟩ <;>
    simp [adjust_employees_decision]

/-- C2 (amended): with no cooldown pending and a full window of 4
profits (`p0` most recent, `p1 p2 p3` the preceding three), the decision
of `adjust_employees` agrees with the spec decision table applied to
`p0` and the mean of the preceding three; and the spec examples hold
once extended to 4-profit windows. -/
theorem adjust_employees_matches_spec_table :
    (∀ p0 p1 p2 p3 : ℚ,
      adjust_employees_decision 0 [p3, p2, p1, p0] =
        spec_employment_table p0 ((p1 + p2 + p3) / 3)) ∧
    adjust_employees_decision 0 [-60, -80, -70, -100] = EmpAction.fire ∧
    adjust_employees_decision 0 [40, 45, 42.5, 50] = EmpAction.hire := by
  have core_eq_table : ∀ p0 avg : ℚ,
      employment_decision_core p0 avg (spec_is_stable p0 avg) =
        spec_employment_table p0 avg := by
    intro p0 avg
    cases h : spec_is_stable p0 avg <;>
      simp [employment_decision_core, spec_employment_table, h]
  refine ⟨?_, ?_, ?_⟩
  · intro p0 p1 p2 p3
    have h4 : ¬ ([p3, p2, p1, p0].length < 4) := by simp
    simp only [adjust_employees_decision, if_neg (lt_irrefl 0), if_neg h4,
      List.reverse_cons, List.reverse_nil, List.nil_append, List.cons_append]
    exact core_eq_table p0 ((p1 + p2 + p3) / 3)
  · norm_num [adjust_employees_decision, employment_decision_core, eps]
  · norm_num [adjust_employees_decision, employment_decision_core, eps]
    intro h
    rw [abs_of_nonneg (by norm_num : (0:ℚ) ≤ 15/2),
        abs_of_nonneg (by norm_num : (0:ℚ) ≤ 85/2)] at h
    norm_num at h

/-- Python's `round` builtin (round half to even), used for
`produced_units` in firm_agent.py. -/
def pyround (q : ℚ) : ℤ :=
  let f := Int.floor q
  let frac := q - f
  if frac < 1/2 then f
  else if 1/2 < frac then f + 1
  else if f % 2 = 0 then f
  else f + 1

/-- `FirmAgent.calculate_total_wage_cost` (firm_agent.py lines 669-689):
the sum of employee wages, falling back to `entry_wage * num_employees`
when no employee is found. -/
def calculate_total_wage_cost (employees : List PersonState)
    (entry_wage : ℚ) (num_employees : ℕ) : ℚ :=
  if employees ≠ [] then (employees.map (fun e => e.wage)).sum
  else entry_wage * num_employees

/-- The initial product price computed in `FirmAgent.__init__`
(firm_agent.py lines 120-137) from the initial workforce and production
parameters. -/
def initial_product_price (production_capacity production_level
    production_cost markup initial_wage_costs initial_added_labor : ℚ) : ℚ :=
  let initial_labor_added_capacity := production_capacity + initial_added_labor
  let initial_produced_units : ℤ :=
    pyround (initial_labor_added_capacity * production_level)
  let initial_material_costs := production_cost * initial_produced_units
  let initial_total_costs := initial_wage_costs + initial_material_costs
  let initial_cost_per_unit :=
    if 0 < initial_produced_units then
      initial_total_costs / initial_produced_units
    else production_cost
  initial_cost_per_unit * (1 + markup)

/-- The financial outputs of one `FirmAgent.step` (firm_agent.py lines
726-785). -/
structure StepFinance where
  produced_units : ℤ
  costs : ℚ
  revenue : ℚ
  pre_tax_profit : ℚ
  tax_paid_this_step : ℚ
  profit : ℚ
deriving DecidableEq, Repr

/-- The production, cost, revenue, tax and profit computation of
`FirmAgent.step` (firm_agent.py lines 730-782): `units_sold_this_step`
is the accumulated fulfilled demand, `amount_from_gov` the revenue the
government purchase map attributes to this firm. -/
def firm_step_finance (production_capacity production_level
    production_cost product_price added_labor wage_costs
    units_sold_this_step amount_from_gov corporate_tax_rate : ℚ) :
    StepFinance :=
  let labor_added_production_capacity := production_capacity + added_labor
  let produced_units : ℤ :=
    pyround (labor_added_production_capacity * production_level)
  let production_costs := production_cost * produced_units
  let costs := wage_costs + production_costs
  let revenue := product_price * units_sold_this_step
  let pre_tax_profit := revenue - costs
  if 0 < pre_tax_profit then
    let true_taxable_profit := pre_tax_profit - amount_from_gov
    if 0 < true_taxable_profit then
      let tax_due_this_step := true_taxable_profit * corporate_tax_rate
      { produced_units := produced_units, costs := costs, revenue := revenue,
        pre_tax_profit := pre_tax_profit,
        tax_paid_this_step := tax_due_this_step,
        profit := pre_tax_profit - tax_due_this_step }
    else
      { produced_units := produced_units, costs := costs, revenue := revenue,
        pre_tax_profit := pre_tax_profit, tax_paid_this_step := 0,
        profit := pre_tax_profit }
  else
    { produced_units := produced_units, costs := costs, revenue := revenue,
      pre_tax_profit := pre_tax_profit, tax_paid_this_step := 0,
      profit := pre_tax_profit }

/-- The scenario firm of C4: a necessity firm with capacity 10000,
production level 1, zero employees, unit cost 2, markup 0.2, with the
initial price from `__init__` and inventory 10000 when the 12000-unit
demand arrives. -/
def scenarioFirm : FirmState :=
  { baseFirm with
      product_price := initial_product_price 10000 1 2 (1/5) 0 0,
      inventory := 10000 }

/-- The sold units of the C4 scenario: the fulfilled part of the
12000-unit request. -/
def scenarioSold : ℚ := (fulfill_demand_request scenarioFirm 12000).2

/-- C4 counterexample: in the scenario the arithmetic up to pre-tax
profit matches the claim (price 2.4, 10000 sold, revenue 24000, costs
20000), but the profit the code records for the step is the after-tax
3120 = 4000 * (1 - 0.22), not 4000, when none of the revenue is a
government purchase. -/
theorem scenario_profit_counterexample :
    scenarioFirm.product_price = 12/5 ∧
    scenarioSold = 10000 ∧
    (firm_step_finance 10000 1 2 scenarioFirm.product_price 0
        (calculate_total_wage_cost [] 30000 0) scenarioSold 0
        (22/100)).profit = 3120 ∧
    (firm_step_finance 10000 1 2 scenarioFirm.product_price 0
        (calculate_total_wage_cost [] 30000 0) scenarioSold 0
        (22/100)).profit ≠ 4000 := by
  have hprice : scenarioFirm.product_price = 12/5 := by
    norm_num [scenarioFirm, baseFirm, initial_product_price, pyround]
  have hsold : scenarioSold = 10000 := by
    norm_num [scenarioSold, fulfill_demand_request, scenarioFirm, baseFirm]
  refine ⟨hprice, hsold, ?_, ?_⟩ <;>
    norm_num [hprice, hsold, firm_step_finance, calculate_total_wage_cost,
      pyround]

/-- C4 (amended): the scenario yields produced_units 10000, costs 20000,
price 2.4, 10000 units sold out of the 12000 requested, revenue 24000
and pre-tax profit 4000; the profit the firm records is the after-tax
3120 when the demand is private, and 4000 exactly when the revenue is
attributed to government purchases (which are excluded from corporate
tax). -/
theorem scenario_step_financials :
    scenarioFirm.product_price = 12/5 ∧
    scenarioSold = 10000 ∧
    (firm_step_finance 10000 1 2 scenarioFirm.product_price 0
        (calculate_total_wage_cost [] 30000 0) scenarioSold 0
        (22/100)).produced_units = 10000 ∧
    (firm_step_finance 10000 1 2 scenarioFirm.product_price 0
        (calculate_total_wage_cost [] 30000 0) scenarioSold 0
        (22/100)).costs = 20000 ∧
    (firm_step_finance 10000 1 2 scenarioFirm.product_price 0
        (calculate_total_wage_cost [] 30000 0) scenarioSold 0
        (22/100)).revenue = 24000 ∧
    (firm_step_finance 10000 1 2 scenarioFirm.product_price 0
        (calculate_total_wage_cost [] 30000 0) scenarioSold 0
        (22/100)).pre_tax_profit = 4000 ∧
    (firm_step_finance 10000 1 2 scenarioFirm.product_price 0
        (calculate_total_wage_cost [] 30000 0) scenarioSold 0
        (22/100)).profit = 3120 ∧
    (firm_step_finance 10000 1 2 scenarioFirm.product_price 0
        (calculate_total_wage_cost [] 30000 0) scenarioSold 24000
        (22/100)).profit = 4000 := by
  have hprice : scenarioFirm.product_price = 12/5 := by
    norm_num [scenarioFirm, baseFirm, initial_product_price, pyround]
  have hsold : scenarioSold = 10000 := by
    norm_num [scenarioSold, fulfill_demand_request, scenarioFirm, baseFirm]
  refine ⟨hprice, hsold, ?_, ?_, ?_, ?_, ?_, ?_⟩ <;>
    norm_num [hprice, hsold, firm_step_finance, calculate_total_wage_cost,
      pyround]

/-- `GovernmentAgent._calculate_and_distribute_unemployment_payments`
(government_agent.py lines 173-196): sets the wage of every person who
is unemployed (`employer is None`) and job seeking to the fixed payment
10000, and returns the updated persons with the total distributed. -/
def distribute_unemployment_payments (persons : List PersonState) :
    List PersonState × ℚ :=
  let payment_per_person : ℚ := 10000
  let unemployed_persons :=
    persons.filter (fun p => p.employer = none ∧ p.job_seeking = true)
  (persons.map (fun p =>
      if p.employer = none ∧ p.job_seeking = true then
        { p with wage := payment_per_person }
      else p),
   (unemployed_persons.map (fun _ => payment_per_person)).sum)

/-- C9: after the distribution, every person with no employer who is job
seeking has wage exactly 10000 (the prior wage is overwritten, not added
to), and the total distributed is 10000 times the number of such
persons. -/
theorem unemployment_payments_correct (persons : List PersonState) :
    (∀ p ∈ (distribute_unemployment_payments persons).1,
        p.employer = none → p.job_seeking = true → p.wage = 10000) ∧
    (distribute_unemployment_payments persons).2 =
      10000 * ((persons.filter
        (fun p => p.employer = none ∧ p.job_seeking = true)).length : ℚ) := by
  constructor
  · intro p hp hemp hseek
    simp only [distribute_unemployment_payments, List.mem_map] at hp
    obtain ⟨q, _, hq⟩ := hp
    by_cases hcond : q.employer = none ∧ q.job_seeking = true
    · rw [if_pos hcond] at hq
      rw [← hq]
    · rw [if_neg hcond] at hq
      subst hq
      exact absurd ⟨hemp, hseek⟩ hcond
  · simp only [distribute_unemployment_payments]
    rw [List.map_const', List.sum_replicate, nsmul_eq_mul]
    ring

/-- `min_skill_levels_config` (firm_agent.py lines 104-111): minimum
skill level per firm area and job level. -/
def min_skill : FirmArea → JobLevel → ℚ
  | FirmArea.technical, JobLevel.senior => 80
  | FirmArea.technical, JobLevel.mid => 60
  | FirmArea.technical, JobLevel.entry => 40
  | FirmArea.creative, JobLevel.senior => 70
  | FirmArea.creative, JobLevel.mid => 50
  | FirmArea.creative, JobLevel.entry => 30
  | FirmArea.physical, JobLevel.senior => 60
  | FirmArea.physical, JobLevel.mid => 40
  | FirmArea.physical, JobLevel.entry => 10
  | FirmArea.social, JobLevel.senior => 70
  | FirmArea.social, JobLevel.mid => 50
  | FirmArea.social, JobLevel.entry => 30
  | FirmArea.analytical, JobLevel.senior => 80
  | FirmArea.analytical, JobLevel.mid => 60
  | FirmArea.analytical, JobLevel.entry => 30
  | FirmArea.service, JobLevel.senior => 60
  | FirmArea.service, JobLevel.mid => 40
  | FirmArea.service, JobLevel.entry => 20

/-- The mutation `hire_new_employee` applies to the hired person
(firm_agent.py lines 648-652). -/
def hire_person_update (p : PersonState) (employer_id : ℕ)
    (offered_wage : ℚ) (jl : JobLevel) : PersonState :=
  { p with employer := some employer_id, wage := offered_wage,
           job_seeking := false, job_level := some jl }

/-- The mutation `fire_least_productive` applies to the fired person
(firm_agent.py lines 551-554). -/
def fire_person_update (p : PersonState) : PersonState :=
  { p with employer := none, wage := 0, job_seeking := true }

/-- The study phase of `PersonAgent.step` (person_agent.py lines
106-117): a person below the entry-level skill minimum for their skill
type stops seeking and studies (skill growth at 1.5 times the base
improvement rate 0.001, capped at 100), resuming the search once the
minimum is reached. -/
def person_step_study (p : PersonState) (min_entry_level : ℚ) :
    PersonState :=
  if p.studying_for_min_skills = true ∨
     (p.job_seeking = true ∧ p.skill_level < min_entry_level) then
    let p2 := { p with
      studying_for_min_skills := true
      job_seeking := false
      skill_level := min 100 (p.skill_level * (1 + 1/1000 * (3/2))) }
    if min_entry_level ≤ p2.skill_level then
      { p2 with studying_for_min_skills := false, job_seeking := true }
    else p2
  else p

/-- The final guard of `PersonAgent.step` (person_agent.py lines
119-122): an employed person is never job seeking nor studying. -/
def person_step_employed_guard (p1 : PersonState) : PersonState :=
  if p1.employer ≠ none then
    { p1 with job_seeking := false, studying_for_min_skills := false }
  else p1

/-- `PersonAgent.step` (person_agent.py lines 95-122); `min_entry_level`
is the entry-level minimum looked up from a firm's configuration for the
person's skill type (default 10 when no firm is found). -/
def person_step (p : PersonState) (min_entry_level : ℚ) : PersonState :=
  person_step_employed_guard (person_step_study p min_entry_level)

/-- The study phase keeps the skill level within the bounds [1, 100]. -/
theorem person_step_study_skill_bounds (p : PersonState) (m : ℚ)
    (h1 : 1 ≤ p.skill_level) (h2 : p.skill_level ≤ 100) :
    1 ≤ (person_step_study p m).skill_level ∧
    (person_step_study p m).skill_level ≤ 100 := by
  have ha : 1 ≤ min (100:ℚ) (p.skill_level * (1 + 1/1000 * (3/2))) :=
    le_min (by norm_num) (by nlinarith)
  have hb : min (100:ℚ) (p.skill_level * (1 + 1/1000 * (3/2))) ≤ 100 :=
    min_le_left _ _
  unfold person_step_study
  split_ifs with hc
  · dsimp only
    split_ifs with hm
    · exact ⟨ha, hb⟩
    · exact ⟨ha, hb⟩
  · exact ⟨h1, h2⟩

/-- The final guard of the person step preserves the skill level and
establishes that an employed person is not job seeking. -/
theorem person_step_employed_guard_spec (q : PersonState) :
    (person_step_employed_guard q).skill_level = q.skill_level ∧
    ((person_step_employed_guard q).employer ≠ none →
      (person_step_employed_guard q).job_seeking = false) := by
  unfold person_step_employed_guard
  split_ifs with hc
  · exact ⟨rfl, fun _ => rfl⟩
  · exact ⟨rfl, fun h => absurd h hc⟩

/-- The person invariant of C6: skill level within bounds and no
employed person is job seeking. -/
def PersonInv (p : PersonState) : Prop :=
  1 ≤ p.skill_level ∧ p.skill_level ≤ 100 ∧
    (p.employer ≠ none → p.job_seeking = false)

/-- C6: the person invariant is preserved by the person step, by the
hiring update (which records the employer and clears job seeking), and
by the firing update (which clears the employer, zeroes the wage and
sets job seeking). -/
theorem person_invariant_preserved :
    (∀ (p : PersonState) (m : ℚ), PersonInv p → PersonInv (person_step p m)) ∧
    (∀ (p : PersonState) (i : ℕ) (w : ℚ) (jl : JobLevel), PersonInv p →
        PersonInv (hire_person_update p i w jl)) ∧
    (∀ p : PersonState, PersonInv p →
        PersonInv (fire_person_update p) ∧
        (fire_person_update p).employer = none ∧
        (fire_person_update p).wage = 0 ∧
        (fire_person_update p).job_seeking = true) := by
  refine ⟨?_, ?_, ?_⟩
  · intro p m hp
    obtain ⟨h1, h2, h3⟩ := hp
    have hs := person_step_study_skill_bounds p m h1 h2
    have hf := person_step_employed_guard_spec (person_step_study p m)
    refine ⟨?_, ?_, ?_⟩
    · show 1 ≤ (person_step_employed_guard (person_step_study p m)).skill_level
      rw [hf.1]
      exact hs.1
    · show (person_step_employed_guard
        (person_step_study p m)).skill_level ≤ 100
      rw [hf.1]
      exact hs.2
    · exact hf.2
  · intro p i w jl hp
    exact ⟨hp.1, hp.2.1, fun _ => rfl⟩
  · intro p hp
    exact ⟨⟨hp.1, hp.2.1, fun h => absurd rfl h⟩, rfl, rfl, rfl⟩

/-- A concrete unemployed, job-seeking person. -/
def unemployedPerson : PersonState where
  unique_id := 10
  employer := none
  wage := 500
  job_seeking := true
  studying_for_min_skills := false
  skill_level := 50
  labor := 12
  skill_type := FirmArea.physical
  job_level := none

/-- A concrete employed person. -/
def employedPerson : PersonState where
  unique_id := 11
  employer := some 1
  wage := 30000
  job_seeking := false
  studying_for_min_skills := false
  skill_level := 60
  labor := 15
  skill_type := FirmArea.service
  job_level := some JobLevel.mid

/-- Witness for C6 at concrete persons. -/
theorem person_invariant_preserved_witness :
    PersonInv (person_step unemployedPerson 10) ∧
    PersonInv (hire_person_update unemployedPerson 1 30000 JobLevel.entry) ∧
    PersonInv (fire_person_update employedPerson) :=
  ⟨person_invariant_preserved.1 unemployedPerson 10
      ⟨by norm_num [unemployedPerson], by norm_num [unemployedPerson],
       by intro h; exact absurd rfl h⟩,
   person_invariant_preserved.2.1 unemployedPerson 1 30000 JobLevel.entry
      ⟨by norm_num [unemployedPerson], by norm_num [unemployedPerson],
       by intro h; exact absurd rfl h⟩,
   (person_invariant_preserved.2.2 employedPerson
      ⟨by norm_num [employedPerson], by norm_num [employedPerson],
       fun _ => rfl⟩).1⟩

/-- Witness for C9 at a concrete pair of persons. -/
theorem unemployment_payments_correct_witness :
    ({ unemployedPerson with wage := 10000 } : PersonState).wage = 10000 ∧
    (distribute_unemployment_payments
        [unemployedPerson, employedPerson]).2 = 10000 :=
  ⟨(unemployment_payments_correct [unemployedPerson, employedPerson]).1
      { unemployedPerson with wage := 10000 }
      (by simp [distribute_unemployment_payments, unemployedPerson,
        employedPerson])
      rfl rfl,
   by
    have h := (unemployment_payments_correct
      [unemployedPerson, employedPerson]).2
    simpa [unemployedPerson, employedPerson] using h⟩

/-- `wage_multipliers` (firm_agent.py line 77). -/
def wage_multiplier : JobLevel → ℚ
  | JobLevel.entry => 1
  | JobLevel.mid => 14/10
  | JobLevel.senior => 2

/-- `skill_mix_config` (firm_agent.py lines 84-91): target share of each
job level per firm area. -/
def skill_mix : FirmArea → JobLevel → ℚ
  | FirmArea.technical, JobLevel.senior => 25/100
  | FirmArea.technical, JobLevel.mid => 60/100
  | FirmArea.technical, JobLevel.entry => 15/100
  | FirmArea.creative, JobLevel.senior => 25/100
  | FirmArea.creative, JobLevel.mid => 45/100
  | FirmArea.creative, JobLevel.entry => 30/100
  | FirmArea.physical, JobLevel.senior => 10/100
  | FirmArea.physical, JobLevel.mid => 35/100
  | FirmArea.physical, JobLevel.entry => 55/100
  | FirmArea.social, JobLevel.senior => 20/100
  | FirmArea.social, JobLevel.mid => 50/100
  | FirmArea.social, JobLevel.entry => 30/100
  | FirmArea.analytical, JobLevel.senior => 25/100
  | FirmArea.analytical, JobLevel.mid => 55/100
  | FirmArea.analytical, JobLevel.entry => 20/100
  | FirmArea.service, JobLevel.senior => 10/100
  | FirmArea.service, JobLevel.mid => 40/100
  | FirmArea.service, JobLevel.entry => 50/100

/-- The job level an employee is counted under when building the current
workforce mix (firm_agent.py lines 587-596). -/
def classify_level (area : FirmArea) (emp : PersonState) : JobLevel :=
  match emp.job_level with
  | some l => l
  | none =>
      if min_skill area JobLevel.senior ≤ emp.skill_level then
        JobLevel.senior
      else if min_skill area JobLevel.mid ≤ emp.skill_level then
        JobLevel.mid
      else JobLevel.entry

/-- `max(differences, key=differences.get)` over the dict built in the
order senior, mid, entry (firm_agent.py lines 602-608): the first key
with the maximal difference wins. -/
def pick_job_level (ds dm de : ℚ) : JobLevel :=
  if dm ≤ ds ∧ de ≤ ds then JobLevel.senior
  else if de ≤ dm then JobLevel.mid
  else JobLevel.entry

/-- The job level `hire_new_employee` decides to hire for (firm_agent.py
lines 577-608). -/
def hire_job_level (f : FirmState) : JobLevel :=
  let current_mix : JobLevel → ℚ := fun l =>
    ((f.employees.filter
        (fun e => classify_level f.firm_area e = l)).length : ℚ)
  let diff : JobLevel → ℚ := fun l =>
    skill_mix f.firm_area l - current_mix l / ((f.num_employees : ℚ) + 1)
  pick_job_level (diff JobLevel.senior) (diff JobLevel.mid)
    (diff JobLevel.entry)

/-- The candidate pool of `hire_new_employee` (firm_agent.py lines
618-632): job seekers with no employer, filtered on skill and on not
being remembered in `previous_employees`, with the relaxed skill filter
as fallback when no exact match exists. -/
def hire_candidate_pool (f : FirmState) (agents : List PersonState) :
    List PersonState :=
  let jl := hire_job_level f
  let min_skill_level := min_skill f.firm_area jl
  let available_job_seekers :=
    agents.filter (fun p => p.job_seeking = true ∧ p.employer = none)
  let matching_candidates :=
    available_job_seekers.filter (fun p =>
      min_skill_level ≤ p.skill_level ∧ p.skill_type = f.firm_area ∧
      p.unique_id ∉ f.previous_employees)
  if matching_candidates = [] then
    available_job_seekers.filter (fun p =>
      min_skill_level - 10 ≤ p.skill_level ∧
      p.unique_id ∉ f.previous_employees)
  else matching_candidates

/-- Descending order on skill level: the sort key of the candidate list
(firm_agent.py line 639). -/
def skillDesc (a b : PersonState) : Prop := b.skill_level ≤ a.skill_level

instance : DecidableRel skillDesc := fun a b =>
  inferInstanceAs (Decidable (b.skill_level ≤ a.skill_level))

instance : IsTotal PersonState skillDesc :=
  ⟨fun a b => le_total b.skill_level a.skill_level⟩

instance : IsTrans PersonState skillDesc :=
  ⟨fun _ _ _ h1 h2 => le_trans h2 h1⟩

/-- `FirmAgent.hire_new_employee` (firm_agent.py lines 564-666).  The
uniform `random.choice` from the top half of the sorted candidates is
modelled by the index parameter `k` (reduced mod the size of the top
half, so every `k` names a possible draw); the unspecified elements that
`set.pop` evicts when the remembered set exceeds 100 are the parameter
`victims`. -/
def hire_new_employee (f : FirmState) (agents : List PersonState) (k : ℕ)
    (victims : Finset ℕ) : Option (FirmState × PersonState) :=
  let jl := hire_job_level f
  let cands := hire_candidate_pool f agents
  if cands = [] then none
  else
    let sorted := List.insertionSort skillDesc cands
    let top_candidate_count := max 1 (cands.length / 2)
    (sorted.get? (k % top_candidate_count)).map (fun person_to_hire =>
      let base_wage := f.entry_wage * wage_multiplier jl
      let skill_bonus := person_to_hire.skill_level * (3/100) * base_wage
      let offered_wage := base_wage + skill_bonus
      let hired :=
        hire_person_update person_to_hire f.unique_id offered_wage jl
      let prev1 := insert hired.unique_id f.previous_employees
      let prev2 := if 100 < prev1.card then prev1 \ victims else prev1
      ({ f with
        employees := f.employees ++ [hired]
        num_employees := f.num_employees + 1
        previous_employees := prev2 }, hired))

/-- The hire wage exactly as the spec words it:
entry wage times level multiplier, plus 3% of that base per skill point. -/
def specHireWage (entry_wage mult skill : ℚ) : ℚ :=
  entry_wage * mult + 3/100 * skill * (entry_wage * mult)

/-- Ascending order on the productivity component of the
(productivity, person) pairs built by `fire_least_productive`. -/
def prodAsc (a b : ℚ × PersonState) : Prop := a.1 ≤ b.1

instance : DecidableRel prodAsc := fun a b =>
  inferInstanceAs (Decidable (a.1 ≤ b.1))

instance : IsTotal (ℚ × PersonState) prodAsc := ⟨fun a b => le_total a.1 b.1⟩

instance : IsTrans (ℚ × PersonState) prodAsc :=
  ⟨fun _ _ _ h1 h2 => le_trans h1 h2⟩

/-- `FirmAgent.fire_least_productive` (firm_agent.py lines 520-562):
computes productivity for every employee, fires the least productive
one (stable sort, so ties break by list order), and no-ops when the
firm has at most one employee. -/
def fire_least_productive (f : FirmState) :
    Option (FirmState × PersonState) :=
  if f.employees = [] ∨ f.num_employees ≤ 1 then none
  else
    let employee_productivity := f.employees.map (fun person =>
      ((person.skill_level * person.labor) / (person.wage + eps), person))
    (List.insertionSort prodAsc employee_productivity).head?.map
      (fun pr =>
        ({ f with
          employees := f.employees.erase pr.2
          num_employees := f.num_employees - 1 },
          fire_person_update pr.2))

/-- C7: the candidate list is sorted by skill level descending; every
possible uniform draw `k` from the top half (`max 1 (n/2)` candidates)
hires exactly the k-th element of that sorted list, a member of the
candidate pool, at wage `entry_wage * level_multiplier + 0.03 *
skill_level * (entry_wage * level_multiplier)`; and with no candidates
the hire returns failure (no resulting state, hence no state change). -/
theorem hire_new_employee_correct (f : FirmState)
    (agents : List PersonState) (k : ℕ) (victims : Finset ℕ) :
    List.Sorted skillDesc
      (List.insertionSort skillDesc (hire_candidate_pool f agents)) ∧
    (hire_candidate_pool f agents = [] →
      hire_new_employee f agents k victims = none) ∧
    (∀ person,
      (List.insertionSort skillDesc (hire_candidate_pool f agents)).get? k =
        some person →
      k < max 1 ((hire_candidate_pool f agents).length / 2) →
      person ∈ hire_candidate_pool f agents ∧
      ∃ f1, hire_new_employee f agents k victims = some (f1,
        hire_person_update person f.unique_id
          (specHireWage f.entry_wage (wage_multiplier (hire_job_level f))
            person.skill_level)
          (hire_job_level f))) := by
  refine ⟨List.sorted_insertionSort skillDesc _, ?_, ?_⟩
  · intro h
    simp [hire_new_employee, h]
  · intro person hget hk
    have hperm :=
      List.perm_insertionSort skillDesc (hire_candidate_pool f agents)
    have hmem : person ∈ hire_candidate_pool f agents :=
      hperm.subset (List.get?_mem hget)
    have hne : hire_candidate_pool f agents ≠ [] := by
      intro h0
      rw [h0] at hget
      simp [List.insertionSort] at hget
    have hmod : k % max 1 ((hire_candidate_pool f agents).length / 2) = k :=
      Nat.mod_eq_of_lt hk
    have hw : f.entry_wage * wage_multiplier (hire_job_level f) +
        person.skill_level * (3/100) *
          (f.entry_wage * wage_multiplier (hire_job_level f)) =
        specHireWage f.entry_wage (wage_multiplier (hire_job_level f))
          person.skill_level := by
      unfold specHireWage
      ring
    refine ⟨hmem, ⟨{ f with
      employees := f.employees ++ [hire_person_update person f.unique_id
        (specHireWage f.entry_wage (wage_multiplier (hire_job_level f))
          person.skill_level) (hire_job_level f)]
      num_employees := f.num_employees + 1
      previous_employees :=
        if 100 < (insert person.unique_id f.previous_employees).card then
          insert person.unique_id f.previous_employees \ victims
        else insert person.unique_id f.previous_employees }, ?_⟩⟩
    unfold hire_new_employee
    rw [if_neg hne]
    simp only [hmod, hget, Option.map_some']
    rw [hw]
    rfl

/-- Witness for C7 at a concrete firm and a one-candidate pool. -/
theorem hire_new_employee_correct_witness :
    unemployedPerson ∈ hire_candidate_pool baseFirm [unemployedPerson] ∧
    ∃ f1, hire_new_employee baseFirm [unemployedPerson] 0 ∅ = some (f1,
      hire_person_update unemployedPerson baseFirm.unique_id
        (specHireWage baseFirm.entry_wage
          (wage_multiplier (hire_job_level baseFirm))
          unemployedPerson.skill_level)
        (hire_job_level baseFirm)) :=
  (hire_new_employee_correct baseFirm [unemployedPerson] 0 ∅).2.2
    unemployedPerson
    (by norm_num [hire_candidate_pool, hire_job_level, pick_job_level,
      classify_level, min_skill, skill_mix, List.insertionSort,
      List.orderedInsert, baseFirm, unemployedPerson])
    (Nat.lt_of_lt_of_le Nat.zero_lt_one (le_max_left 1 _))

/-- C8 (amended): firing leaves the remembered set
`previous_employees` unchanged (fired IDs are never added to it); it is
the hire operation that adds the hired person's ID (subject to the
eviction of unspecified elements once the set exceeds 100); and a
person whose ID is in the set is never selected by a hire. -/
theorem previous_employees_tracking :
    (∀ (f f1 : FirmState) (p : PersonState),
        fire_least_productive f = some (f1, p) →
        f1.previous_employees = f.previous_employees) ∧
    (∀ (f : FirmState) (agents : List PersonState) (k : ℕ)
        (victims : Finset ℕ) (f1 : FirmState) (hired : PersonState),
        hire_new_employee f agents k victims = some (f1, hired) →
        hired.unique_id ∉ f.previous_employees) ∧
    (∀ (f : FirmState) (agents : List PersonState) (k : ℕ)
        (victims : Finset ℕ) (f1 : FirmState) (hired : PersonState),
        hire_new_employee f agents k victims = some (f1, hired) →
        ¬ 100 < (insert hired.unique_id f.previous_employees).card →
        f1.previous_employees = insert hired.unique_id f.previous_employees) := by
  refine ⟨?_, ?_, ?_⟩
  · intro f f1 p h
    by_cases hc : f.employees = [] ∨ f.num_employees ≤ 1
    · unfold fire_least_productive at h
      rw [if_pos hc] at h
      exact Option.noConfusion h
    · unfold fire_least_productive at h
      rw [if_neg hc] at h
      simp only [Option.map_eq_some'] at h
      obtain ⟨pr, -, h1⟩ := h
      rw [Prod.mk.injEq] at h1
      obtain ⟨ha, -⟩ := h1
      rw [← ha]
  · intro f agents k victims f1 hired h
    by_cases hc : hire_candidate_pool f agents = []
    · unfold hire_new_employee at h
      rw [if_pos hc] at h
      exact Option.noConfusion h
    · unfold hire_new_employee at h
      rw [if_neg hc] at h
      simp only [Option.map_eq_some'] at h
      obtain ⟨person, hget, heq⟩ := h
      have hmem : person ∈ hire_candidate_pool f agents :=
        (List.perm_insertionSort skillDesc
          (hire_candidate_pool f agents)).subset (List.get?_mem hget)
      rw [Prod.mk.injEq] at heq
      obtain ⟨-, h2⟩ := heq
      have hid : hired.unique_id = person.unique_id := by
        rw [← h2]
        rfl
      rw [hid]
      unfold hire_candidate_pool at hmem
      dsimp only at hmem
      split_ifs at hmem with hm
      · have hfilt := List.of_mem_filter hmem
        simp only [decide_eq_true_eq] at hfilt
        exact hfilt.2
      · have hfilt := List.of_mem_filter hmem
        simp only [decide_eq_true_eq] at hfilt
        exact hfilt.2.2
  · intro f agents k victims f1 hired h hcard
    by_cases hc : hire_candidate_pool f agents = []
    · unfold hire_new_employee at h
      rw [if_pos hc] at h
      exact Option.noConfusion h
    · unfold hire_new_employee at h
      rw [if_neg hc] at h
      simp only [Option.map_eq_some'] at h
      obtain ⟨person, hget, heq⟩ := h
      rw [Prod.mk.injEq] at heq
      obtain ⟨h1, h2⟩ := heq
      have hid : hired.unique_id = person.unique_id := by
        rw [← h2]
        rfl
      rw [← h1]
      show (if 100 < (insert person.unique_id f.previous_employees).card
        then insert person.unique_id f.previous_employees \ victims
        else insert person.unique_id f.previous_employees) =
          insert hired.unique_id f.previous_employees
      rw [hid] at hcard ⊢
      rw [if_neg hcard]

/-- A mid-level employed worker with high productivity. -/
def workerA : PersonState where
  unique_id := 20
  employer := some 1
  wage := 100
  job_seeking := false
  studying_for_min_skills := false
  skill_level := 80
  labor := 20
  skill_type := FirmArea.physical
  job_level := some JobLevel.mid

/-- An entry-level employed worker with low productivity. -/
def workerB : PersonState where
  unique_id := 21
  employer := some 1
  wage := 100
  job_seeking := false
  studying_for_min_skills := false
  skill_level := 10
  labor := 2
  skill_type := FirmArea.physical
  job_level := some JobLevel.entry

/-- A firm staffed with the two concrete workers and an empty
remembered set. -/
def staffedFirm : FirmState :=
  { baseFirm with employees := [workerA, workerB], num_employees := 2 }

/-- Evaluation of `fire_least_productive` on the staffed firm: the
low-productivity worker is fired and `previous_employees` stays empty. -/
theorem fire_staffedFirm_eval :
    fire_least_productive staffedFirm =
      some ({ staffedFirm with employees := [workerA], num_employees := 1 },
        fire_person_update workerB) := by
  norm_num [fire_least_productive, staffedFirm, baseFirm, workerA, workerB,
    eps, prodAsc, List.insertionSort, List.orderedInsert, List.erase_cons,
    fire_person_update]
  intro hcontra
  exact absurd hcontra (by simp)

/-- C8 counterexample: on the staffed firm the fire succeeds but the
fired person's ID (21) is not added to the firm's remembered set, which
stays empty. -/
theorem fired_id_not_remembered_counterexample :
    fire_least_productive staffedFirm =
      some ({ staffedFirm with employees := [workerA], num_employees := 1 },
        fire_person_update workerB) ∧
    (fire_person_update workerB).unique_id ∉
      ({ staffedFirm with employees := [workerA], num_employees := 1 }
        : FirmState).previous_employees :=
  ⟨fire_staffedFirm_eval, by simp [staffedFirm, baseFirm]⟩

/-- Witness for the amended C8 at the staffed firm. -/
theorem previous_employees_tracking_witness :
    ({ staffedFirm with employees := [workerA], num_employees := 1 }
      : FirmState).previous_employees = staffedFirm.previous_employees :=
  previous_employees_tracking.1 staffedFirm
    { staffedFirm with employees := [workerA], num_employees := 1 }
    (fire_person_update workerB) fire_staffedFirm_eval

/-- Python's `int()` applied to a rational (truncation toward zero),
used for `desired_units` in household_agent.py. -/
def pytrunc (q : ℚ) : ℤ :=
  if q < 0 then -(Int.floor (-q)) else Int.floor q

/-- `pytrunc` of a non-negative rational is its floor, hence at most the
rational itself. -/
theorem pytrunc_cast_le (q : ℚ) (hq : 0 ≤ q) : (pytrunc q : ℚ) ≤ q := by
  unfold pytrunc
  rw [if_neg (not_lt.mpr hq)]
  exact Int.floor_le q

/-- The purchase loop of `HouseholdAgent._calculate_cost_and_buy`
(household_agent.py lines 149-184), and of the per-type loop of
`_spend_on_luxuries` (lines 235-258), which has the same body.  The
candidate list stands for the shuffled pool in the order the loop's
random choice draws firms, so a theorem over all lists covers every
run; a chosen firm is removed after its turn exactly as in the code,
and a firm whose inventory is exhausted is skipped (the code never
chooses it). -/
def buy_from_firms : ℚ → List FirmState → ℚ
  | _, [] => 0
  | remaining_spend_target, chosen_firm :: rest =>
    if remaining_spend_target ≤ 1/100 then 0
    else if chosen_firm.inventory ≤ 0 then
      buy_from_firms remaining_spend_target rest
    else if 0 < pytrunc (remaining_spend_target / chosen_firm.product_price) then
      if 0 < (fulfill_demand_request chosen_firm
          ((pytrunc (remaining_spend_target / chosen_firm.product_price) : ℤ)
            : ℚ)).2 then
        (fulfill_demand_request chosen_firm
          ((pytrunc (remaining_spend_target / chosen_firm.product_price) : ℤ)
            : ℚ)).2 * chosen_firm.product_price +
          buy_from_firms (remaining_spend_target -
            (fulfill_demand_request chosen_firm
              ((pytrunc (remaining_spend_target / chosen_firm.product_price)
                : ℤ) : ℚ)).2 * chosen_firm.product_price) rest
      else buy_from_firms remaining_spend_target rest
    else buy_from_firms remaining_spend_target rest

/-- Each purchase is capped by the remaining budget: the loop spends a
non-negative amount never exceeding its target, for any draw order. -/
theorem buy_from_firms_le (firms : List FirmState) :
    ∀ r : ℚ, 0 ≤ r → (∀ f ∈ firms, 0 < f.product_price) →
    0 ≤ buy_from_firms r firms ∧ buy_from_firms r firms ≤ r := by
  induction firms with
  | nil =>
      intro r hr _
      exact ⟨le_rfl, hr⟩
  | cons f rest ih =>
      intro r hr hp
      have hpf : 0 < f.product_price := hp f (List.mem_cons_self _ _)
      have hprest : ∀ g ∈ rest, 0 < g.product_price := fun g hg =>
        hp g (List.mem_cons_of_mem _ hg)
      unfold buy_from_firms
      split_ifs with h1 h2 h3 h4
      · exact ⟨le_rfl, hr⟩
      · exact ih r hr hprest
      · -- a purchase happens: its cost is bounded by the remaining target
        have hrpos : (0:ℚ) < r := lt_trans (by norm_num) (not_le.mp h1)
        have hdiv : 0 ≤ r / f.product_price := le_of_lt (div_pos hrpos hpf)
        have hbought : (fulfill_demand_request f
            ((pytrunc (r / f.product_price) : ℤ) : ℚ)).2 =
            min ((pytrunc (r / f.product_price) : ℤ) : ℚ) f.inventory := rfl
        have hble : (fulfill_demand_request f
            ((pytrunc (r / f.product_price) : ℤ) : ℚ)).2 ≤ r / f.product_price := by
          rw [hbought]
          exact le_trans (min_le_left _ _) (pytrunc_cast_le _ hdiv)
        have hcost : (fulfill_demand_request f
            ((pytrunc (r / f.product_price) : ℤ) : ℚ)).2 * f.product_price ≤ r := by
          have := mul_le_mul_of_nonneg_right hble (le_of_lt hpf)
          rwa [div_mul_cancel₀ r (ne_of_gt hpf)] at this
        have hcost0 : 0 ≤ (fulfill_demand_request f
            ((pytrunc (r / f.product_price) : ℤ) : ℚ)).2 * f.product_price :=
          mul_nonneg (le_of_lt h4) (le_of_lt hpf)
        obtain ⟨hr0, hr1⟩ := ih
          (r - (fulfill_demand_request f
            ((pytrunc (r / f.product_price) : ℤ) : ℚ)).2 * f.product_price)
          (by linarith) hprest
        constructor
        · linarith
        · linarith
      · exact ih r hr hprest
      · exact ih r hr hprest

/-- `HouseholdAgent._spend_on_luxuries` (household_agent.py lines
188-262): the sampled spend percentage and the firm pools of the two
randomly chosen luxury types are parameters. -/
def spend_on_luxuries (remaining_budget spend_percent : ℚ)
    (firmsA firmsB : List FirmState) : ℚ :=
  if remaining_budget ≤ 0 then 0
  else
    let total_luxury_budget_to_spend := remaining_budget * spend_percent
    let budget_per_luxury_type := total_luxury_budget_to_spend / 2
    buy_from_firms budget_per_luxury_type firmsA +
      buy_from_firms budget_per_luxury_type firmsB

/-- Luxury spending is non-negative and never exceeds the remaining
budget. -/
theorem spend_on_luxuries_le (rb p : ℚ) (A B : List FirmState)
    (hrb : 0 ≤ rb) (hp0 : 0 ≤ p) (hp1 : p ≤ 1)
    (hA : ∀ f ∈ A, 0 < f.product_price)
    (hB : ∀ f ∈ B, 0 < f.product_price) :
    0 ≤ spend_on_luxuries rb p A B ∧ spend_on_luxuries rb p A B ≤ rb := by
  unfold spend_on_luxuries
  split_ifs with h
  · exact ⟨le_rfl, hrb⟩
  · have hbud : 0 ≤ rb * p / 2 := by positivity
    obtain ⟨ha0, ha1⟩ := buy_from_firms_le A (rb * p / 2) hbud hA
    obtain ⟨hb0, hb1⟩ := buy_from_firms_le B (rb * p / 2) hbud hB
    have hmul : rb * p ≤ rb := by nlinarith
    constructor
    · linarith
    · linarith

/-- Income / wealth classification of a household. -/
inductive Bracket where
  | low
  | middle
  | high
deriving DecidableEq, Repr

/-- State of a `HouseholdAgent` (household_agent.py), restricted to the
fields the step reads or writes. -/
structure HouseholdState where
  num_people : ℚ
  income_tax_rate : ℚ
  necessity_spend_per_person : ℚ
  total_household_savings : ℚ
  household_step_income : ℚ
  household_step_income_posttax : ℚ
  household_step_expense : ℚ
  debt_level : ℚ
  income_bracket : Bracket
  wealth_bracket : Bracket
  health_level : ℚ
  welfare : ℚ
deriving DecidableEq

/-- The necessity phase of `HouseholdAgent.step` (household_agent.py
lines 302-327): physical goods first with half the attemptable budget,
then service goods with what is left of that budget. -/
def necessity_spending (attemptable_necessity_budget : ℚ)
    (physFirms servFirms : List FirmState) : ℚ :=
  let physical_target := max 0 (attemptable_necessity_budget * (1/2))
  let physical_spent :=
    if 1/100 < physical_target then
      buy_from_firms physical_target physFirms
    else 0
  let service_target := max 0 (attemptable_necessity_budget - physical_spent)
  let service_spent :=
    if 1/100 < service_target then
      buy_from_firms service_target servFirms
    else 0
  physical_spent + service_spent

/-- The luxury phase of `HouseholdAgent.step` (household_agent.py lines
329-345), as a function of the wealth bracket; the sampled spend
percentage (drawn from (0.6, 1.0) for middle and (0.8, 1.0) for high
wealth) is the parameter `p`. -/
def luxury_spending (wb : Bracket) (remaining_funds p : ℚ)
    (luxFirmsA luxFirmsB : List FirmState) : ℚ :=
  if wb = Bracket.low then 0
  else if wb = Bracket.middle ∧ 0 < remaining_funds then
    spend_on_luxuries remaining_funds p luxFirmsA luxFirmsB
  else if wb = Bracket.high ∧ 0 < remaining_funds then
    spend_on_luxuries remaining_funds p luxFirmsA luxFirmsB
  else 0

/-- `HouseholdAgent.step` (household_agent.py lines 264-389): income
from employed members, bracket classification, necessity then luxury
spending, and the financial update.  The firm lists are the candidate
pools of the four purchase loops in draw order. -/
def household_step (h : HouseholdState) (members : List PersonState)
    (physFirms servFirms luxFirmsA luxFirmsB : List FirmState)
    (p : ℚ) : HouseholdState :=
  let household_step_income :=
    ((members.filter (fun m => m.employer ≠ none)).map (fun m => m.wage)).sum
  let total_necessity_target := h.necessity_spend_per_person * h.num_people
  let income_bracket :=
    if household_step_income < total_necessity_target then Bracket.low
    else if household_step_income < total_necessity_target * 3 then
      Bracket.middle
    else Bracket.high
  let posttax := household_step_income * (1 - h.income_tax_rate)
  let wealth_bracket :=
    if h.total_household_savings + posttax <
        total_necessity_target * (12/10) then Bracket.low
    else if h.total_household_savings + posttax <
        total_necessity_target * 4 then Bracket.middle
    else Bracket.high
  let available_funds := posttax + h.total_household_savings
  let attemptable_necessity_budget :=
    min total_necessity_target available_funds
  let total_necessity_spent :=
    necessity_spending attemptable_necessity_budget physFirms servFirms
  let remaining_funds := available_funds - total_necessity_spent
  let luxury_spent :=
    luxury_spending wealth_bracket remaining_funds p luxFirmsA luxFirmsB
  let household_step_expense := total_necessity_spent + luxury_spent
  let new_savings := available_funds - household_step_expense
  let necessity_fulfillment :=
    if 0 < total_necessity_target then
      min 1 (total_necessity_spent / (total_necessity_target - 5000))
    else 1
  let base_health : ℚ :=
    if wealth_bracket = Bracket.low then 35
    else if wealth_bracket = Bracket.middle then 70
    else 100
  { h with
    household_step_income := household_step_income
    household_step_income_posttax := posttax
    household_step_expense := household_step_expense
    total_household_savings := new_savings
    debt_level := if new_savings < 0 then -new_savings else 0
    income_bracket := income_bracket
    wealth_bracket := wealth_bracket
    health_level := base_health * necessity_fulfillment
    welfare := posttax * (3/10) + household_step_expense * (2/10) +
      new_savings * (2/10) + base_health * necessity_fulfillment * (3/10) }

/-- Necessity spending is non-negative and bounded by the positive part
of the attemptable budget. -/
theorem necessity_spending_bounds (att : ℚ)
    (physFirms servFirms : List FirmState)
    (hphys : ∀ f ∈ physFirms, 0 < f.product_price)
    (hserv : ∀ f ∈ servFirms, 0 < f.product_price) :
    0 ≤ necessity_spending att physFirms servFirms ∧
    necessity_spending att physFirms servFirms ≤ max 0 att := by
  simp only [necessity_spending]
  have hPT : (0:ℚ) ≤ max 0 (att * (1/2)) := le_max_left _ _
  have hps : 0 ≤ (if 1/100 < max 0 (att * (1/2)) then
      buy_from_firms (max 0 (att * (1/2))) physFirms else 0) ∧
      (if 1/100 < max 0 (att * (1/2)) then
        buy_from_firms (max 0 (att * (1/2))) physFirms else 0) ≤
        max 0 (att * (1/2)) := by
    split_ifs with hc
    · exact buy_from_firms_le physFirms _ hPT hphys
    · exact ⟨le_rfl, hPT⟩
  set ps := (if 1/100 < max 0 (att * (1/2)) then
    buy_from_firms (max 0 (att * (1/2))) physFirms else 0) with hps_def
  have hST : (0:ℚ) ≤ max 0 (att - ps) := le_max_left _ _
  have hss : 0 ≤ (if 1/100 < max 0 (att - ps) then
      buy_from_firms (max 0 (att - ps)) servFirms else 0) ∧
      (if 1/100 < max 0 (att - ps) then
        buy_from_firms (max 0 (att - ps)) servFirms else 0) ≤
        max 0 (att - ps) := by
    split_ifs with hc
    · exact buy_from_firms_le servFirms _ hST hserv
    · exact ⟨le_rfl, hST⟩
  set ss := (if 1/100 < max 0 (att - ps) then
    buy_from_firms (max 0 (att - ps)) servFirms else 0) with hss_def
  refine ⟨add_nonneg hps.1 hss.1, ?_⟩
  rcases le_or_lt att 0 with hatt | hatt
  · have hPT0 : max 0 (att * (1/2)) = 0 := max_eq_left (by linarith)
    have hps0 : ps = 0 := le_antisymm (hPT0 ▸ hps.2) hps.1
    have hST0 : max 0 (att - ps) = 0 := max_eq_left (by rw [hps0]; linarith)
    have hss0 : ss = 0 := le_antisymm (hST0 ▸ hss.2) hss.1
    rw [hps0, hss0]
    simp
  · have hPT1 : max 0 (att * (1/2)) = att * (1/2) :=
      max_eq_right (by linarith)
    have hps1 : ps ≤ att * (1/2) := hPT1 ▸ hps.2
    have hST1 : max 0 (att - ps) = att - ps :=
      max_eq_right (by linarith)
    have hss1 : ss ≤ att - ps := hST1 ▸ hss.2
    have : ps + ss ≤ att := by linarith
    exact le_trans this (le_max_right _ _)

/-- Luxury spending is non-negative and bounded by the remaining
funds. -/
theorem luxury_spending_bounds (wb : Bracket) (rem p : ℚ)
    (A B : List FirmState) (hrem : 0 ≤ rem) (hp0 : 0 ≤ p) (hp1 : p ≤ 1)
    (hA : ∀ f ∈ A, 0 < f.product_price)
    (hB : ∀ f ∈ B, 0 < f.product_price) :
    0 ≤ luxury_spending wb rem p A B ∧ luxury_spending wb rem p A B ≤ rem := by
  unfold luxury_spending
  split_ifs with h1 h2 h3
  · exact ⟨le_rfl, hrem⟩
  · exact spend_on_luxuries_le rem p A B hrem hp0 hp1 hA hB
  · exact spend_on_luxuries_le rem p A B hrem hp0 hp1 hA hB
  · exact ⟨le_rfl, hrem⟩

/-- C5: a household never spends more than its available funds
(post-tax income plus savings), and its new savings are exactly the
available funds minus its total spending. -/
theorem household_budget_invariant (h : HouseholdState)
    (members : List PersonState)
    (physFirms servFirms luxFirmsA luxFirmsB : List FirmState) (p : ℚ)
    (hsav : 0 ≤ h.total_household_savings)
    (hw : ∀ m ∈ members, 0 ≤ m.wage)
    (htax : h.income_tax_rate ≤ 1)
    (hp0 : 0 ≤ p) (hp1 : p ≤ 1)
    (hphys : ∀ f ∈ physFirms, 0 < f.product_price)
    (hserv : ∀ f ∈ servFirms, 0 < f.product_price)
    (hluxA : ∀ f ∈ luxFirmsA, 0 < f.product_price)
    (hluxB : ∀ f ∈ luxFirmsB, 0 < f.product_price) :
    (household_step h members physFirms servFirms luxFirmsA luxFirmsB
        p).household_step_expense ≤
      (household_step h members physFirms servFirms luxFirmsA luxFirmsB
        p).household_step_income_posttax + h.total_household_savings ∧
    (household_step h members physFirms servFirms luxFirmsA luxFirmsB
        p).total_household_savings =
      (household_step h members physFirms servFirms luxFirmsA luxFirmsB
        p).household_step_income_posttax + h.total_household_savings -
      (household_step h members physFirms servFirms luxFirmsA luxFirmsB
        p).household_step_expense := by
  have hincome : 0 ≤ ((members.filter
      (fun m => m.employer ≠ none)).map (fun m => m.wage)).sum := by
    apply List.sum_nonneg
    intro x hx
    simp only [List.mem_map] at hx
    obtain ⟨m, hm, rfl⟩ := hx
    exact hw m (List.mem_of_mem_filter hm)
  have hpost : 0 ≤ ((members.filter
      (fun m => m.employer ≠ none)).map (fun m => m.wage)).sum *
      (1 - h.income_tax_rate) :=
    mul_nonneg hincome (by linarith)
  have havail : 0 ≤ ((members.filter
      (fun m => m.employer ≠ none)).map (fun m => m.wage)).sum *
      (1 - h.income_tax_rate) + h.total_household_savings :=
    add_nonneg hpost hsav
  constructor
  · simp only [household_step]
    set income := ((members.filter
      (fun m => m.employer ≠ none)).map (fun m => m.wage)).sum with hinc_def
    set avail := income * (1 - h.income_tax_rate) +
      h.total_household_savings with havail_def
    set att := min (h.necessity_spend_per_person * h.num_people) avail
      with hatt_def
    have hnec := necessity_spending_bounds att physFirms servFirms hphys hserv
    set nec := necessity_spending att physFirms servFirms with hnec_def
    have hnec_avail : nec ≤ avail := by
      refine le_trans hnec.2 ?_
      have h1 : max 0 att ≤ max 0 avail :=
        max_le_max le_rfl (min_le_right _ _)
      rwa [max_eq_right havail] at h1
    have hlux := luxury_spending_bounds
      (if h.total_household_savings + income * (1 - h.income_tax_rate) <
          h.necessity_spend_per_person * h.num_people * (12/10) then
        Bracket.low
      else if h.total_household_savings + income * (1 - h.income_tax_rate) <
          h.necessity_spend_per_person * h.num_people * 4 then Bracket.middle
      else Bracket.high)
      (avail - nec) p luxFirmsA luxFirmsB (by linarith) hp0 hp1 hluxA hluxB
    linarith [hlux.1, hlux.2, hnec.1]
  · rfl

/-- A concrete household used to instantiate C5. -/
def baseHousehold : HouseholdState where
  num_people := 2
  income_tax_rate := 15/100
  necessity_spend_per_person := 57750
  total_household_savings := 115500
  household_step_income := 0
  household_step_income_posttax := 0
  household_step_expense := 0
  debt_level := 0
  income_bracket := Bracket.low
  wealth_bracket := Bracket.low
  health_level := 0
  welfare := 0

/-- Witness for C5 at a concrete household, member and firm pool. -/
theorem household_budget_invariant_witness :
    (household_step baseHousehold [employedPerson] [baseFirm] [] [] []
        (4/5)).household_step_expense ≤
      (household_step baseHousehold [employedPerson] [baseFirm] [] [] []
        (4/5)).household_step_income_posttax +
      baseHousehold.total_household_savings ∧
    (household_step baseHousehold [employedPerson] [baseFirm] [] [] []
        (4/5)).total_household_savings =
      (household_step baseHousehold [employedPerson] [baseFirm] [] [] []
        (4/5)).household_step_income_posttax +
      baseHousehold.total_household_savings -
      (household_step baseHousehold [employedPerson] [baseFirm] [] [] []
        (4/5)).household_step_expense :=
  household_budget_invariant baseHousehold [employedPerson] [baseFirm] [] [] []
    (4/5)
    (by norm_num [baseHousehold])
    (by
      intro m hm
      rw [List.mem_singleton] at hm
      subst hm
      norm_num [employedPerson])
    (by norm_num [baseHousehold])
    (by norm_num)
    (by norm_num)
    (by
      intro f hf
      rw [List.mem_singleton] at hf
      subst hf
      norm_num [baseFirm])
    (fun f hf => absurd hf (List.not_mem_nil f))
    (fun f hf => absurd hf (List.not_mem_nil f))
    (fun f hf => absurd hf (List.not_mem_nil f))

end Economyxim
